import Mathlib

/-!
Verification of the citecheck citation recognition and matching engine.

The TypeScript core (`src/lib/extractor.ts`, `src/lib/verifier.ts`,
`src/lib/report.ts`, `src/lib/types.ts`) is shallowly embedded below.
Regular expressions from the source are represented by an explicit
backtracking matcher (`RE` / `mAll`) that follows JavaScript semantics:
leftmost match, alternatives tried left to right, greedy quantifiers
prefer longer matches, lazy quantifiers prefer shorter ones, and a
global `exec` loop resumes scanning at the end of the previous match.
Network access in the verifier is modelled by oracle parameters giving
the outcome of the two CourtListener queries; the impure current year
and timestamps are explicit parameters.
-/

namespace CiteCheck

/-! ## Characters, JavaScript-style string primitives -/

/-- The apostrophe character (used in the regex classes of the source). -/
def squote : Char := Char.ofNat 39

/-- JavaScript `\s` (the whitespace characters relevant here). -/
def jsWS (c : Char) : Bool :=
  c.toNat = 32 || c.toNat = 9 || c.toNat = 10 || c.toNat = 13 || c.toNat = 11 ||
  c.toNat = 12 || c.toNat = 160 || c.toNat = 8232 || c.toNat = 8233 || c.toNat = 65279

/-- ASCII letter; this is `[A-Z]` under the `i` flag. -/
def isAsciiLetterCh (c : Char) : Bool :=
  (97 ≤ c.toNat && c.toNat ≤ 122) || (65 ≤ c.toNat && c.toNat ≤ 90)

/-- JavaScript `\d`. -/
def isDigitCh (c : Char) : Bool := 48 ≤ c.toNat && c.toNat ≤ 57

/-- JavaScript `\w` = `[A-Za-z0-9_]`. -/
def isWordCh (c : Char) : Bool := isAsciiLetterCh c || isDigitCh c || c.toNat = 95

/-- ASCII lower-casing of one character (`String.prototype.toLowerCase` on ASCII). -/
def lcChar (c : Char) : Char :=
  if 65 ≤ c.toNat && c.toNat ≤ 90 then Char.ofNat (c.toNat + 32) else c

/-- Drop JS whitespace from both ends (`String.prototype.trim`). -/
def trimList (l : List Char) : List Char :=
  ((l.dropWhile jsWS).reverse.dropWhile jsWS).reverse

/-- `replace(/\s+/g, ' ')`: collapse every whitespace run to a single space.
The boolean records whether the previous character was whitespace. -/
def collapseWSAux : Bool → List Char → List Char
  | _, [] => []
  | prev, c :: cs =>
    if jsWS c then
      if prev then collapseWSAux true cs else ' ' :: collapseWSAux true cs
    else c :: collapseWSAux false cs

def collapseWS (l : List Char) : List Char := collapseWSAux false l

/-- Substring containment (`String.prototype.includes`). -/
def subIncludes (hay needle : List Char) : Bool :=
  if needle.isPrefixOf hay then true
  else
    match hay with
    | [] => false
    | _ :: t => subIncludes t needle

def lowerS (s : String) : String := String.mk (s.data.map lcChar)

def includesS (hay needle : String) : Bool := subIncludes hay.data needle.data

/-- `str.replace(/\s+/g, ' ').trim().toLowerCase()` (extractor's `normalizeWhitespace`). -/
def normalizeWhitespace (s : String) : String :=
  String.mk ((trimList (collapseWS s.data)).map lcChar)

/-- `reporter.replace(/\s+/g, ' ').trim()` (extractor's `normalizeReporter`). -/
def normalizeReporter (s : String) : String :=
  String.mk (trimList (collapseWS s.data))

/-- `replace(/,\s*$/, '')`: delete a trailing comma together with the
whitespace following it, if the string ends that way. -/
def stripTrailingCommaWS (l : List Char) : List Char :=
  match l.reverse.dropWhile jsWS with
  | c :: rest => if c = ',' then rest.reverse else l
  | [] => l

/-- `replace(/^\s*,/, '')`: delete leading whitespace followed by a comma,
if the string starts that way. -/
def stripLeadingWSComma (l : List Char) : List Char :=
  match l.dropWhile jsWS with
  | c :: rest => if c = ',' then rest else l
  | [] => l

/-- Extractor's `cleanCaseName`: falsy input gives `undefined`; otherwise
collapse whitespace, strip a trailing comma, strip a leading comma, trim. -/
def cleanCaseName : Option String → Option String
  | none => none
  | some s =>
    if s = "" then none
    else some (String.mk (trimList (stripLeadingWSComma (stripTrailingCommaWS (collapseWS s.data)))))

def isHexCh (c : Char) : Bool :=
  (48 ≤ c.toNat && c.toNat ≤ 57) || (97 ≤ c.toNat && c.toNat ≤ 102) ||
  (65 ≤ c.toNat && c.toNat ≤ 70)

def hexDigitVal (c : Char) : Nat :=
  if 48 ≤ c.toNat && c.toNat ≤ 57 then c.toNat - 48
  else if 97 ≤ c.toNat && c.toNat ≤ 102 then c.toNat - 87
  else c.toNat - 55

def digitsVal (l : List Char) : Nat := l.foldl (fun a c => a * 10 + (c.toNat - 48)) 0

def hexVal (l : List Char) : Nat := l.foldl (fun a c => a * 16 + hexDigitVal c) 0

/-- JavaScript `parseInt(s)` (no explicit radix): skip whitespace, optional
sign, optional `0x`/`0X` hex prefix, then the longest digit prefix.
`none` models `NaN`. -/
def parseIntJS (s : String) : Option Int :=
  let cs0 := s.data.dropWhile jsWS
  let sign : Int := match cs0 with
    | c :: _ => if c = '-' then -1 else 1
    | [] => 1
  let cs1 : List Char := match cs0 with
    | c :: rest => if c = '-' || c = '+' then rest else cs0
    | [] => []
  match cs1 with
  | c0 :: c1 :: rest =>
    if c0 = '0' && (c1 = 'x' || c1 = 'X') then
      let ds := rest.takeWhile isHexCh
      if ds.isEmpty then none else some (sign * (hexVal ds : Int))
    else
      let ds := cs1.takeWhile isDigitCh
      if ds.isEmpty then none else some (sign * (digitsVal ds : Int))
  | _ =>
    let ds := cs1.takeWhile isDigitCh
    if ds.isEmpty then none else some (sign * (digitsVal ds : Int))

/-! ## A backtracking regex matcher with JavaScript semantics -/

/-- Regex syntax: character classes, sequencing, alternation, greedy and
lazy Kleene star, and numbered capture groups.  `?`, `+`, `+?` and counted
repetitions are desugared below. -/
inductive RE where
  | eps : RE
  | cls : (Char → Bool) → RE
  | seq : RE → RE → RE
  | alt : RE → RE → RE
  | starG : RE → RE
  | starL : RE → RE
  | group : Nat → RE → RE

abbrev Caps := List (Nat × List Char)

/-- All ways a regex can match a prefix of the input, each result giving the
remaining suffix and the captures, ordered by JavaScript backtracking
preference (the head is the match JavaScript commits to).  Star iterations
that consume nothing are not repeated, as in JavaScript.  The fuel bounds
recursion depth and is chosen large enough for all inputs considered. -/
def mAll : Nat → RE → List Char → List (List Char × Caps)
  | 0, _, _ => []
  | _ + 1, .eps, cs => [(cs, [])]
  | _ + 1, .cls _, [] => []
  | _ + 1, .cls p, c :: cs => if p c then [(cs, [])] else []
  | f + 1, .seq a b, cs =>
    (mAll f a cs).flatMap fun r1 => (mAll f b r1.1).map fun r2 => (r2.1, r1.2 ++ r2.2)
  | f + 1, .alt a b, cs => mAll f a cs ++ mAll f b cs
  | f + 1, .starG r, cs =>
    (((mAll f r cs).filter fun r1 => r1.1.length < cs.length).flatMap fun r1 =>
      (mAll f (.starG r) r1.1).map fun r2 => (r2.1, r1.2 ++ r2.2)) ++ [(cs, [])]
  | f + 1, .starL r, cs =>
    (cs, []) :: (((mAll f r cs).filter fun r1 => r1.1.length < cs.length).flatMap fun r1 =>
      (mAll f (.starL r) r1.1).map fun r2 => (r2.1, r1.2 ++ r2.2))
  | f + 1, .group i r, cs =>
    (mAll f r cs).map fun r1 => (r1.1, r1.2 ++ [(i, cs.take (cs.length - r1.1.length))])

/-- One match of the `exec` loop: start offset, length of `match[0]`, captures. -/
structure RMatch where
  start : Nat
  len : Nat
  caps : Caps
deriving DecidableEq, Repr

def fuelFor (n : Nat) : Nat := (n + 64) * 64

/-- The preference-ordered parses at position `i` (whole-input parses only
when `anchored`, expressing a trailing `$`). -/
def parsesAt (re : RE) (t : List Char) (anchored : Bool) (i : Nat) : List (List Char × Caps) :=
  let rs := mAll (fuelFor (t.drop i).length) re (t.drop i)
  if anchored then rs.filter fun r => r.1.isEmpty else rs

/-- Attempt a match at exactly position `i`: JavaScript commits to the first
parse in preference order. -/
def tryAt (re : RE) (t : List Char) (anchored : Bool) (i : Nat) : Option RMatch :=
  (parsesAt re t anchored i).head?.map fun r => ⟨i, (t.drop i).length - r.1.length, r.2⟩

/-- The `(?<!\w)` guard of the short-citation pattern: the character before
position `i`, if any, is not a word character. -/
def lbOK (useLB : Bool) (t : List Char) (i : Nat) : Bool :=
  !useLB ||
    (match i with
     | 0 => true
     | j + 1 =>
       match t.get? j with
       | some c => !isWordCh c
       | none => true)

/-- Scan positions `i, i+1, ...` for the leftmost match (regex `exec`). -/
def findFromAux (re : RE) (t : List Char) (useLB anchored : Bool) : Nat → Nat → Option RMatch
  | 0, _ => none
  | k + 1, i =>
    match (if lbOK useLB t i then tryAt re t anchored i else none) with
    | some m => some m
    | none => findFromAux re t useLB anchored k (i + 1)

def findFrom (re : RE) (t : List Char) (useLB anchored : Bool) (i : Nat) : Option RMatch :=
  findFromAux re t useLB anchored (t.length + 1 - i) i

/-- The global `exec` loop: after a match, scanning resumes at its end
(`lastIndex`), advancing at least one position. -/
def execAllAux (re : RE) (t : List Char) (useLB : Bool) : Nat → Nat → List RMatch
  | 0, _ => []
  | k + 1, i =>
    match findFrom re t useLB false i with
    | none => []
    | some m => m :: execAllAux re t useLB k (max (m.start + m.len) (m.start + 1))

def execAll (re : RE) (t : List Char) (useLB : Bool) : List RMatch :=
  execAllAux re t useLB (t.length + 1) 0

def capGet (m : RMatch) (i : Nat) : Option String :=
  (m.caps.find? fun p => p.1 == i).map fun p => String.mk p.2

/-! ## Reporter tables (`src/lib/types.ts`) -/

/-- `FEDERAL_REPORTERS` of `types.ts`, in object-literal key order. -/
def FEDERAL_REPORTERS : List (String × String) := [
  ("U.S.", "United States Reports"),
  ("S. Ct.", "Supreme Court Reporter"),
  ("L. Ed.", "Lawyers Edition"),
  ("L. Ed. 2d", "Lawyers Edition Second Series"),
  ("F.", "Federal Reporter"),
  ("F.2d", "Federal Reporter Second Series"),
  ("F.3d", "Federal Reporter Third Series"),
  ("F.4th", "Federal Reporter Fourth Series"),
  ("F. Supp.", "Federal Supplement"),
  ("F. Supp. 2d", "Federal Supplement Second Series"),
  ("F. Supp. 3d", "Federal Supplement Third Series"),
  ("F.R.D.", "Federal Rules Decisions"),
  ("B.R.", "Bankruptcy Reporter"),
  ("Fed. Cl.", "Federal Claims Reporter"),
  ("Vet. App.", "Veterans Appeals Reporter")]

/-- `STATE_REPORTERS` of `types.ts`. -/
def STATE_REPORTERS : List (String × String) := [
  ("N.Y.", "New York Reports"),
  ("N.Y.2d", "New York Reports Second Series"),
  ("N.Y.3d", "New York Reports Third Series"),
  ("A.D.", "Appellate Division Reports"),
  ("A.D.2d", "Appellate Division Reports Second Series"),
  ("A.D.3d", "Appellate Division Reports Third Series"),
  ("Cal.", "California Reports"),
  ("Cal. 2d", "California Reports Second Series"),
  ("Cal. 3d", "California Reports Third Series"),
  ("Cal. 4th", "California Reports Fourth Series"),
  ("Cal. 5th", "California Reports Fifth Series"),
  ("Cal. App.", "California Appellate Reports"),
  ("Cal. App. 2d", "California Appellate Reports Second Series"),
  ("Cal. App. 3d", "California Appellate Reports Third Series"),
  ("Cal. App. 4th", "California Appellate Reports Fourth Series"),
  ("Cal. App. 5th", "California Appellate Reports Fifth Series"),
  ("Ill.", "Illinois Reports"),
  ("Ill. 2d", "Illinois Reports Second Series"),
  ("Ill. App.", "Illinois Appellate Court Reports"),
  ("Ill. App. 2d", "Illinois Appellate Court Reports Second Series"),
  ("Ill. App. 3d", "Illinois Appellate Court Reports Third Series"),
  ("Tex.", "Texas Reports"),
  ("Pa.", "Pennsylvania State Reports"),
  ("Ohio St.", "Ohio State Reports"),
  ("Ohio St. 2d", "Ohio State Reports Second Series"),
  ("Ohio St. 3d", "Ohio State Reports Third Series"),
  ("Mass.", "Massachusetts Reports"),
  ("N.J.", "New Jersey Reports"),
  ("Mich.", "Michigan Reports"),
  ("Minn.", "Minnesota Reports"),
  ("Wis.", "Wisconsin Reports"),
  ("Wis. 2d", "Wisconsin Reports Second Series")]

/-- `REGIONAL_REPORTERS` of `types.ts`. -/
def REGIONAL_REPORTERS : List (String × String) := [
  ("A.", "Atlantic Reporter"),
  ("A.2d", "Atlantic Reporter Second Series"),
  ("A.3d", "Atlantic Reporter Third Series"),
  ("N.E.", "North Eastern Reporter"),
  ("N.E.2d", "North Eastern Reporter Second Series"),
  ("N.E.3d", "North Eastern Reporter Third Series"),
  ("N.W.", "North Western Reporter"),
  ("N.W.2d", "North Western Reporter Second Series"),
  ("P.", "Pacific Reporter"),
  ("P.2d", "Pacific Reporter Second Series"),
  ("P.3d", "Pacific Reporter Third Series"),
  ("S.E.", "South Eastern Reporter"),
  ("S.E.2d", "South Eastern Reporter Second Series"),
  ("S.W.", "South Western Reporter"),
  ("S.W.2d", "South Western Reporter Second Series"),
  ("S.W.3d", "South Western Reporter Third Series"),
  ("So.", "Southern Reporter"),
  ("So. 2d", "Southern Reporter Second Series"),
  ("So. 3d", "Southern Reporter Third Series")]

/-- `ALL_REPORTERS` is the spread-merge of the three tables (no duplicate
keys, so list concatenation is an exact model). -/
def ALL_REPORTERS : List (String × String) :=
  FEDERAL_REPORTERS ++ STATE_REPORTERS ++ REGIONAL_REPORTERS

/-- Property access `ALL_REPORTERS[key]` (own keys). -/
def reporterLookup (k : String) : Option String :=
  (ALL_REPORTERS.find? fun p => p.1 == k).map fun p => p.2

/-! ## Patterns (`src/lib/extractor.ts`) -/

/-- Stable insertion of a string into a length-sorted (descending) list; an
element already in the list keeps priority over an equal-length newcomer,
mirroring the stable `sort((a, b) => b.length - a.length)`. -/
def insertLenDesc (s : String) : List String → List String
  | [] => [s]
  | t :: ts => if t.length ≤ s.length then s :: t :: ts else t :: insertLenDesc s ts

def sortLenDesc : List String → List String
  | [] => []
  | s :: ss => insertLenDesc s (sortLenDesc ss)

def reporterNames : List String := sortLenDesc (ALL_REPORTERS.map fun p => p.1)

def reSeqL (l : List RE) : RE := l.foldr RE.seq RE.eps

/-- Case-insensitive literal character (`i` flag). -/
def cich (c : Char) : RE := .cls fun x => lcChar x = lcChar c

/-- Exact literal character. -/
def chOf (c : Char) : RE := .cls fun x => x = c

def clsWS : RE := .cls jsWS
def clsD : RE := .cls isDigitCh
def clsAZ : RE := .cls isAsciiLetterCh
def clsNameCh : RE := .cls fun c => isWordCh c || c = '.' || c = squote || c = '-'
def clsTailCh : RE := .cls fun c => isWordCh c || jsWS c || c = ',' || c = squote || c = '-'
def clsNotRParen : RE := .cls fun c => !(c = ')')

def optG (r : RE) : RE := .alt r .eps
def plusG (r : RE) : RE := .seq r (.starG r)
def plusL (r : RE) : RE := .seq r (.starL r)

/-- A reporter key compiled as in the source: `.` escaped to a literal and
every whitespace character replaced by `\s*`. -/
def reporterRE (key : String) : RE :=
  reSeqL (key.data.map fun c => if jsWS c then RE.starG clsWS else cich c)

def altList : List RE → RE
  | [] => .cls fun _ => false
  | [r] => r
  | r :: rs => .alt r (altList rs)

/-- The `REPORTER_PATTERN` alternation, longest keys first. -/
def reporterAltRE : RE := altList (reporterNames.map reporterRE)

/-- `\d{1,n+1}` as nested greedy options. -/
def dOpt : Nat → RE
  | 0 => .eps
  | n + 1 => optG (.seq clsD (dOpt n))

def d1to4 : RE := .seq clsD (dOpt 3)
def d1to5 : RE := .seq clsD (dOpt 4)
def d4 : RE := reSeqL [clsD, clsD, clsD, clsD]

/-- `(?:v\.?|vs\.?)`. -/
def vsepRE : RE :=
  .alt (.seq (cich 'v') (optG (chOf '.')))
    (.seq (cich 'v') (.seq (cich 's') (optG (chOf '.'))))

/-- `[A-Z][\w.'\-]+(?:\s+(?:v\.?|vs\.?)\s+[A-Z][\w.'\-]+[\w\s,'\-]*?)`. -/
def caseNameCore : RE :=
  reSeqL [clsAZ, plusG clsNameCh, plusG clsWS, vsepRE, plusG clsWS,
    clsAZ, plusG clsNameCh, .starL clsTailCh]

/-- `(?:\s*,\s*(\d{1,5}))?` with capture group `g`. -/
def pinpointRE (g : Nat) : RE :=
  optG (reSeqL [.starG clsWS, chOf ',', .starG clsWS, .group g d1to5])

/-- `(?:\s*\(([^)]+?)\s*(\d{4})\))?` with capture groups `gc` and `gy`. -/
def courtYearRE (gc gy : Nat) : RE :=
  optG (reSeqL [.starG clsWS, chOf '(', .group gc (plusL clsNotRParen),
    .starG clsWS, .group gy d4, chOf ')'])

/-- `PATTERNS.fullCitation`. -/
def fullRE : RE :=
  reSeqL [.group 1 caseNameCore, optG (chOf ','), .starG clsWS,
    .group 2 d1to4, .starG clsWS, .group 3 reporterAltRE, .starG clsWS,
    .group 4 d1to5, pinpointRE 5, courtYearRE 6 7]

/-- `PATTERNS.shortCitation` without its `(?<!\w)` guard, which is handled
by the scan loop (`lbOK`). -/
def shortRE : RE :=
  reSeqL [.group 1 d1to4, .starG clsWS, .group 2 reporterAltRE, .starG clsWS,
    .group 3 d1to5, pinpointRE 4, courtYearRE 5 6]

/-- `[A-Z][\w.'\-]+\s+v\.?\s+[A-Z][\w.'\-]+[\w\s,'\-]*?` (first pattern of
`extractPrecedingCaseName`; note: no `vs` alternative). -/
def precCore1 : RE :=
  reSeqL [clsAZ, plusG clsNameCh, plusG clsWS, cich 'v', optG (chOf '.'),
    plusG clsWS, clsAZ, plusG clsNameCh, .starL clsTailCh]

/-- `[A-Z][\w.'\-]+\s+v\.?\s+[A-Z][\w.'\-]+` (second and third patterns). -/
def precCore2 : RE :=
  reSeqL [clsAZ, plusG clsNameCh, plusG clsWS, cich 'v', optG (chOf '.'),
    plusG clsWS, clsAZ, plusG clsNameCh]

/-- `/([A-Z][\w.'\-]+\s+v\.?\s+[A-Z][\w.'\-]+[\w\s,'\-]*?)\s*,?\s*$/i`;
the `$` anchor is expressed by anchored matching. -/
def precP1 : RE :=
  reSeqL [.group 1 precCore1, .starG clsWS, optG (chOf ','), .starG clsWS]

/-- `/See\s+([A-Z][\w.'\-]+\s+v\.?\s+[A-Z][\w.'\-]+)/i`. -/
def precP2 : RE :=
  reSeqL [cich 'S', cich 'e', cich 'e', plusG clsWS, .group 1 precCore2]

/-- `/in\s+([A-Z][\w.'\-]+\s+v\.?\s+[A-Z][\w.'\-]+)/i`. -/
def precP3 : RE :=
  reSeqL [cich 'i', cich 'n', plusG clsWS, .group 1 precCore2]

/-! ## Citation extraction (`src/lib/extractor.ts`) -/

/-- The `Citation` interface of `types.ts`. -/
structure Citation where
  raw : String
  caseName : Option String := none
  volume : Option String := none
  reporter : String
  page : Option String := none
  year : Option String := none
  court : Option String := none
  startIndex : Nat
  endIndex : Nat
deriving DecidableEq, Repr

def sliceStr (t : List Char) (s len : Nat) : List Char := (t.drop s).take len

/-- `match[0].trim()`. -/
def rawOf (t : List Char) (m : RMatch) : String := String.mk (trimList (sliceStr t m.start m.len))

/-- `text.match(re)` (non-global): group 1 of the leftmost match. -/
def matchGroup1 (re : RE) (anchored : Bool) (pre : List Char) : Option String :=
  match findFrom re pre false anchored 0 with
  | some m => capGet m 1
  | none => none

/-- `extractPrecedingCaseName`: try the three context patterns in order. -/
def extractPrecedingCaseName (pre : List Char) : Option String :=
  match matchGroup1 precP1 true pre with
  | some n => cleanCaseName (some n)
  | none =>
    match matchGroup1 precP2 false pre with
    | some n => cleanCaseName (some n)
    | none =>
      match matchGroup1 precP3 false pre with
      | some n => cleanCaseName (some n)
      | none => none

/-- Build a citation from a full-pattern match (first pass). -/
def mkFullCit (t : List Char) (m : RMatch) : Citation :=
  let raw := rawOf t m
  { raw := raw
    caseName := cleanCaseName (capGet m 1)
    volume := capGet m 2
    reporter := normalizeReporter ((capGet m 3).getD "")
    page := capGet m 4
    year := capGet m 7
    court := (capGet m 6).map fun s => String.mk (trimList s.data)
    startIndex := m.start
    endIndex := m.start + raw.length }

/-- Build a citation from a short-pattern match (second pass), recovering a
case name from up to 200 characters of preceding text. -/
def mkShortCit (t : List Char) (m : RMatch) : Citation :=
  let raw := rawOf t m
  let pre := (t.take m.start).drop (m.start - 200)
  { raw := raw
    caseName := extractPrecedingCaseName pre
    volume := capGet m 1
    reporter := normalizeReporter ((capGet m 2).getD "")
    page := capGet m 3
    year := capGet m 6
    court := (capGet m 5).map fun s => String.mk (trimList s.data)
    startIndex := m.start
    endIndex := m.start + raw.length }

/-- First pass over the full-citation matches, threading the `seen` set of
normalized raw keys; returns the retained citations and the final set. -/
def fullPassAux (t : List Char) : List RMatch → List String → List Citation × List String
  | [], seen => ([], seen)
  | m :: ms, seen =>
    let key := normalizeWhitespace (rawOf t m)
    if seen.contains key then fullPassAux t ms seen
    else
      let r := fullPassAux t ms (key :: seen)
      (mkFullCit t m :: r.1, r.2)

/-- `citations.some(c => matchIndex >= c.startIndex && matchIndex < c.endIndex)`. -/
def overlapsAny (i : Nat) (cits : List Citation) : Bool :=
  cits.any fun c => decide (c.startIndex ≤ i) && decide (i < c.endIndex)

/-- Second pass over the short-citation matches.  `cits` is the array of
citations retained so far (full citations plus earlier short ones); the
`seen` key is added only when the candidate is retained. -/
def shortPassAux (t : List Char) : List RMatch → List String → List Citation → List Citation
  | [], _, _ => []
  | m :: ms, seen, cits =>
    let key := normalizeWhitespace (rawOf t m)
    if seen.contains key then shortPassAux t ms seen cits
    else if overlapsAny m.start cits then shortPassAux t ms seen cits
    else
      let c := mkShortCit t m
      c :: shortPassAux t ms (key :: seen) (cits ++ [c])

def fullMatches (t : List Char) : List RMatch := execAll fullRE t false

def shortMatches (t : List Char) : List RMatch := execAll shortRE t true

def fullCits (t : List Char) : List Citation := (fullPassAux t (fullMatches t) []).1

def seenAfterFull (t : List Char) : List String := (fullPassAux t (fullMatches t) []).2

def shortCits (t : List Char) : List Citation :=
  shortPassAux t (shortMatches t) (seenAfterFull t) (fullCits t)

def citLE (a b : Citation) : Prop := a.startIndex ≤ b.startIndex

instance : DecidableRel citLE := fun a b => Nat.decLe a.startIndex b.startIndex

/-- `extractCitations`: both passes followed by the stable sort
`citations.sort((a, b) => a.startIndex - b.startIndex)`. -/
def extractCitations (text : String) : List Citation :=
  List.insertionSort citLE (fullCits text.data ++ shortCits text.data)

/-! ## Format validation and display (`src/lib/extractor.ts`) -/

/-- `citation.volume || '0'` (template for `parseInt`). -/
def jsOrZero : Option String → String
  | some s => if s = "" then "0" else s
  | none => "0"

/-- Template-literal interpolation of a possibly-undefined string. -/
def jsTpl : Option String → String
  | some s => s
  | none => "undefined"

/-- A truthy optional string contributes itself, a falsy one nothing. -/
def optListT : Option String → List String
  | some s => if s = "" then [] else [s]
  | none => []

/-- `parseInt` result outside `[lo, hi]`; `NaN` compares false. -/
def intOutside (o : Option Int) (lo hi : Int) : Bool :=
  match o with
  | some v => decide (v < lo) || decide (hi < v)
  | none => false

/-- `validateCitationFormat`.  The impure `new Date().getFullYear()` is the
`currentYear` parameter.  Returns `(valid, issues)`. -/
def validateCitationFormat (currentYear : Int) (c : Citation) : Bool × List String :=
  let volumeIssues :=
    if intOutside (parseIntJS (jsOrZero c.volume)) 1 2000 then
      ["Unusual volume number: " ++ jsTpl c.volume] else []
  let pageIssues :=
    if intOutside (parseIntJS (jsOrZero c.page)) 1 10000 then
      ["Unusual page number: " ++ jsTpl c.page] else []
  let yearIssues :=
    match c.year with
    | some y =>
      if y = "" then []
      else if intOutside (parseIntJS y) 1789 currentYear then
        ["Year out of range: " ++ y] else []
    | none => []
  let reporterIssues :=
    if (reporterLookup (String.mk (collapseWS c.reporter.data))).isSome then []
    else ["Unknown reporter: " ++ c.reporter]
  let issues := volumeIssues ++ pageIssues ++ yearIssues ++ reporterIssues
  (issues.isEmpty, issues)

/-- `formatCitation`. -/
def formatCitation (c : Citation) : String :=
  let nameParts := (optListT c.caseName).map fun n => n ++ ","
  let head := jsTpl c.volume ++ " " ++ c.reporter ++ " " ++ jsTpl c.page
  let parens := optListT c.court ++ optListT c.year
  let parenParts :=
    if parens.isEmpty then []
    else ["(" ++ String.intercalate " " parens ++ ")"]
  String.intercalate " " (nameParts ++ [head] ++ parenParts)

/-! ## Verification (`src/lib/verifier.ts`)

The CourtListener queries are modelled by two oracle parameters
`q1` (the citation-string search) and `q2` (the free-text component
search); `none` is a transport/HTTP failure, `some` a parsed response. -/

/-- The fields of a CourtListener search record. -/
structure CLCase where
  id : Nat := 0
  absolute_url : String := ""
  case_name : String := ""
  case_name_short : String := ""
  citation : Option (List String) := none
  court : String := ""
  court_id : String := ""
  date_filed : String := ""
  docket_number : String := ""
  judges : String := ""
  status : String := ""
deriving DecidableEq, Repr

structure SearchResponse where
  count : Nat
  results : List CLCase
deriving DecidableEq, Repr

inductive VStatus where
  | verified
  | notFound
  | partMatch
  | formatError
  | apiError
deriving DecidableEq, Repr

structure MatchedCase where
  caseName : String
  citation : String
  dateFiled : String
  court : String
  docketNumber : String
deriving DecidableEq, Repr

structure VerificationResult where
  citation : Citation
  status : VStatus
  confidence : Nat
  details : String
  courtListenerUrl : Option String := none
  matchedCase : Option MatchedCase := none
  warnings : List String
deriving DecidableEq, Repr

/-- Attempt to match the separator `/\s+v\.?\s+/i` at the head of the list;
on success return the remainder after it. -/
def vsepTry (cs : List Char) : Option (List Char) :=
  let w1 := cs.dropWhile jsWS
  if w1.length = cs.length then none
  else
    match w1 with
    | c :: rest =>
      if c = 'v' || c = 'V' then
        let rest2 := match rest with
          | d :: r => if d = '.' then r else rest
          | [] => rest
        let w2 := rest2.dropWhile jsWS
        if w2.length = rest2.length then none else some w2
      else none
    | [] => none

/-- `split(/\s+v\.?\s+/i)`: scan for successive separator matches. -/
def splitVSepAux : Nat → List Char → List Char → List String
  | 0, cs, cur => [String.mk (cur.reverse ++ cs)]
  | _ + 1, [], cur => [String.mk cur.reverse]
  | k + 1, c :: rest, cur =>
    match vsepTry (c :: rest) with
    | some after => String.mk cur.reverse :: splitVSepAux k after []
    | none => splitVSepAux k rest (c :: cur)

def splitVSep (s : String) : List String := splitVSepAux s.data.length s.data []

/-- `party.replace(/[^\w\s]/g, '')`. -/
def stripNonWordSpace (s : String) : String :=
  String.mk (s.data.filter fun c => isWordCh c || jsWS c)

/-- `p.replace(/[^\w]/g, '')`. -/
def stripNonWord (s : String) : String := String.mk (s.data.filter isWordCh)

/-- The citation-string category of `calculateConfidence`: walk the
candidate's citation strings and stop at the first that matches fully
(`+50`, case-insensitive containment of `"volume reporter page"`) or
partially (`+30`, contains the volume and the page tokens). -/
def citeContribution (citationStr vol pg : String) : List String → Nat
  | [] => 0
  | s :: rest =>
    if includesS (lowerS s) (lowerS citationStr) then 50
    else if includesS s vol && includesS s pg then 30
    else citeContribution citationStr vol pg rest

/-- The case-name category of `calculateConfidence`: count the citation's
party tokens (split on the `v.` separator, punctuation stripped, trimmed)
contained in the candidate's full name; 2 or more give 30, exactly 1 gives 15. -/
def caseNameScore (c : Citation) (r : CLCase) : Nat :=
  match c.caseName with
  | some n =>
    if n ≠ "" && r.case_name ≠ "" then
      let resultName := lowerS r.case_name
      let citeParties := splitVSep (lowerS n)
      let partyMatches := (citeParties.filter fun party =>
        let simplified := String.mk (trimList (stripNonWordSpace party).data)
        !simplified.isEmpty && includesS resultName simplified).length
      if 2 ≤ partyMatches then 30 else if partyMatches = 1 then 15 else 0
    else 0
  | none => 0

/-- The year category of `calculateConfidence`: equal year strings give 20,
numeric difference at most 1 gives 10. -/
def yearScore (c : Citation) (r : CLCase) : Nat :=
  match c.year with
  | some y =>
    if y ≠ "" && r.date_filed ≠ "" then
      let resultYear := String.mk (r.date_filed.data.take 4)
      if y = resultYear then 20
      else
        match parseIntJS y, parseIntJS resultYear with
        | some a, some b => if (a - b).natAbs ≤ 1 then 10 else 0
        | _, _ => 0
    else 0
  | none => 0

/-- `calculateConfidence`, capped at 100. -/
def calculateConfidence (c : Citation) (r : CLCase) : Nat :=
  let citationStr := jsTpl c.volume ++ " " ++ c.reporter ++ " " ++ jsTpl c.page
  let citeScore := citeContribution citationStr (c.volume.getD "") (c.page.getD "") (r.citation.getD [])
  min 100 (citeScore + caseNameScore c r + yearScore c r)

/-- One step of the best-match fold: strictly higher confidence replaces the
current best, so ties keep the first-seen candidate. -/
def pickStep (c : Citation) (acc : Option CLCase × Nat) (r : CLCase) : Option CLCase × Nat :=
  let cf := calculateConfidence c r
  if acc.2 < cf then (some r, cf) else acc

/-- The best-match selection loop of `verifyCitation`. -/
def pickBest (c : Citation) (l : List CLCase) : Option CLCase × Nat :=
  l.foldl (pickStep c) (none, 0)

/-- The case-name plausibility cross-check: if no party token of the
citation and of the best match contain one another, warn. -/
def mismatchWarnings (c : Citation) (best : CLCase) : List String :=
  match c.caseName with
  | some n =>
    if n ≠ "" && best.case_name ≠ "" then
      let citeParties := (splitVSep (lowerS n)).map fun p =>
        String.mk (trimList (stripNonWord p).data)
      let matchParties := (splitVSep (lowerS best.case_name)).map fun p =>
        String.mk (trimList (stripNonWord p).data)
      let anyMatch := citeParties.any fun cp => matchParties.any fun mp =>
        !cp.isEmpty && !mp.isEmpty && (includesS cp mp || includesS mp cp)
      if anyMatch then []
      else ["Case name mismatch: citation says \"" ++ n ++ "\", database shows \"" ++
        best.case_name ++ "\""]
    else []
  | none => []

def mkMatched (best : CLCase) : MatchedCase :=
  { caseName := best.case_name
    citation := String.intercalate ", " (best.citation.getD [])
    dateFiled := best.date_filed
    court := best.court
    docketNumber := best.docket_number }

/-- The response the classification step acts on: the first query's, unless it
failed or had zero results, in which case the component query's. -/
def finalLookup (q1 q2 : Option SearchResponse) : Option SearchResponse :=
  match q1 with
  | none => q2
  | some r => if r.count = 0 then q2 else some r

/-- `verifyCitation`. -/
def verifyCitation (currentYear : Int) (q1 q2 : Option SearchResponse) (c : Citation) :
    VerificationResult :=
  let fv := validateCitationFormat currentYear c
  if !fv.1 then
    { citation := c, status := .formatError, confidence := 0,
      details := "Citation format issues: " ++ String.intercalate "; " fv.2,
      warnings := fv.2 }
  else
    match finalLookup q1 q2 with
    | none =>
      { citation := c, status := .apiError, confidence := 0,
        details := "Failed to query CourtListener API. Check your connection or try again later.",
        warnings := ["API request failed"] }
    | some sr =>
      if sr.count = 0 then
        { citation := c, status := .notFound, confidence := 0,
          details := "No matching case found for \"" ++ formatCitation c ++
            "\". This citation may be fabricated, from a state court not in CourtListener, or use a different citation format.",
          warnings := ["No matching case in database"] }
      else
        match pickBest c sr.results with
        | (none, _) =>
          { citation := c, status := .notFound, confidence := 0,
            details := "Search returned results but none matched the citation.",
            warnings := ["No confident match found"] }
        | (some best, bestConfidence) =>
          let warnings := mismatchWarnings c best
          if 70 ≤ bestConfidence then
            { citation := c, status := .verified, confidence := bestConfidence,
              details := "Citation verified. Found matching case in CourtListener database.",
              courtListenerUrl := some ("https://www.courtlistener.com" ++ best.absolute_url),
              matchedCase := some (mkMatched best),
              warnings := warnings }
          else if 40 ≤ bestConfidence then
            { citation := c, status := .partMatch, confidence := bestConfidence,
              details := "Possible match found, but confidence is low. Manual verification recommended.",
              courtListenerUrl := some ("https://www.courtlistener.com" ++ best.absolute_url),
              matchedCase := some (mkMatched best),
              warnings := warnings ++ ["Low confidence match - verify manually"] }
          else
            { citation := c, status := .notFound, confidence := bestConfidence,
              details := "Found potential result \"" ++ best.case_name ++
                "\" but match confidence is too low.",
              warnings := warnings ++ ["Very low confidence - likely not a match"] }

/-- `verifyCitations`: strictly sequential, order preserved.  The oracles
give each citation its pair of query outcomes. -/
def verifyCitations (currentYear : Int) (oracle : Citation → Option SearchResponse × Option SearchResponse)
    (cs : List Citation) : List VerificationResult :=
  cs.map fun c => verifyCitation currentYear (oracle c).1 (oracle c).2 c

/-! ## Report aggregation (`src/lib/report.ts`) -/

/-- The `VerificationReport` interface (`partialMatches` is `partMatches`). -/
structure VerificationReport where
  documentName : String
  totalCitations : Nat
  verified : Nat
  notFound : Nat
  partMatches : Nat
  formatErrors : Nat
  apiErrors : Nat
  results : List VerificationResult
  processedAt : String
deriving Repr

/-- `generateReport`; the impure timestamp is the `processedAt` parameter. -/
def generateReport (documentName processedAt : String) (results : List VerificationResult) :
    VerificationReport :=
  { documentName := documentName
    totalCitations := results.length
    verified := (results.filter fun r => r.status == VStatus.verified).length
    notFound := (results.filter fun r => r.status == VStatus.notFound).length
    partMatches := (results.filter fun r => r.status == VStatus.partMatch).length
    formatErrors := (results.filter fun r => r.status == VStatus.formatError).length
    apiErrors := (results.filter fun r => r.status == VStatus.apiError).length
    results := results
    processedAt := processedAt }

/-! ## Structural properties of the scan loop -/

theorem tryAt_start {re : RE} {t : List Char} {anch : Bool} {i : Nat} {m : RMatch}
    (h : tryAt re t anch i = some m) : m.start = i := by
  unfold tryAt at h
  rcases Option.map_eq_some'.mp h with ⟨r, _, hr⟩
  exact hr ▸ rfl

theorem findFromAux_ge (re : RE) (t : List Char) (lb anch : Bool) :
    ∀ k i m, findFromAux re t lb anch k i = some m → i ≤ m.start := by
  intro k
  induction k with
  | zero => intro i m h; simp [findFromAux] at h
  | succ k ih =>
    intro i m h
    rw [findFromAux] at h
    split at h
    · next m' heq =>
      cases h
      split at heq
      · exact (tryAt_start heq).ge
      · cases heq
    · exact Nat.le_of_succ_le (ih (i + 1) m h)

theorem findFrom_ge {re : RE} {t : List Char} {lb anch : Bool} {i : Nat} {m : RMatch}
    (h : findFrom re t lb anch i = some m) : i ≤ m.start :=
  findFromAux_ge re t lb anch (t.length + 1 - i) i m h

theorem execAllAux_ge (re : RE) (t : List Char) (lb : Bool) :
    ∀ k i m, m ∈ execAllAux re t lb k i → i ≤ m.start := by
  intro k
  induction k with
  | zero => intro i m h; simp [execAllAux] at h
  | succ k ih =>
    intro i m h
    rw [execAllAux] at h
    split at h
    · simp at h
    · next m0 heq =>
      rcases List.mem_cons.mp h with h1 | h1
      · exact h1 ▸ findFrom_ge heq
      · have h2 := ih _ m h1
        have h3 : i ≤ m0.start := findFrom_ge heq
        have h4 : m0.start + 1 ≤ max (m0.start + m0.len) (m0.start + 1) := Nat.le_max_right _ _
        omega

/-- Consecutive matches of the global `exec` loop never overlap: each later
match starts at or after the end of any earlier one. -/
theorem execAllAux_chain (re : RE) (t : List Char) (lb : Bool) :
    ∀ k i, (execAllAux re t lb k i).Pairwise (fun a b => a.start + a.len ≤ b.start) := by
  intro k
  induction k with
  | zero => intro i; simp [execAllAux]
  | succ k ih =>
    intro i
    rw [execAllAux]
    split
    · simp
    · next m0 _ =>
      refine List.Pairwise.cons ?_ (ih _)
      intro b hb
      have h1 := execAllAux_ge re t lb k _ b hb
      have h2 : m0.start + m0.len ≤ max (m0.start + m0.len) (m0.start + 1) := Nat.le_max_left _ _
      omega

theorem execAll_chain (re : RE) (t : List Char) (lb : Bool) :
    (execAll re t lb).Pairwise (fun a b => a.start + a.len ≤ b.start) :=
  execAllAux_chain re t lb (t.length + 1) 0

theorem trimList_length_le (l : List Char) : (trimList l).length ≤ l.length := by
  unfold trimList
  calc ((l.dropWhile jsWS).reverse.dropWhile jsWS).reverse.length
      = ((l.dropWhile jsWS).reverse.dropWhile jsWS).length := List.length_reverse _
    _ ≤ (l.dropWhile jsWS).reverse.length := (List.dropWhile_sublist _).length_le
    _ = (l.dropWhile jsWS).length := List.length_reverse _
    _ ≤ l.length := (List.dropWhile_sublist _).length_le

theorem rawOf_length_le (t : List Char) (m : RMatch) : (rawOf t m).length ≤ m.len := by
  unfold rawOf sliceStr
  have h1 : (trimList ((t.drop m.start).take m.len)).length ≤ ((t.drop m.start).take m.len).length :=
    trimList_length_le _
  have h2 : ((t.drop m.start).take m.len).length ≤ m.len := by
    rw [List.length_take]; exact Nat.min_le_left _ _
  exact le_trans h1 h2

theorem mkFullCit_start (t : List Char) (m : RMatch) : (mkFullCit t m).startIndex = m.start := rfl

theorem mkFullCit_end (t : List Char) (m : RMatch) :
    (mkFullCit t m).endIndex = m.start + (rawOf t m).length := rfl

theorem mkFullCit_raw (t : List Char) (m : RMatch) : (mkFullCit t m).raw = rawOf t m := rfl

theorem mkShortCit_start (t : List Char) (m : RMatch) : (mkShortCit t m).startIndex = m.start := rfl

theorem mkShortCit_end (t : List Char) (m : RMatch) :
    (mkShortCit t m).endIndex = m.start + (rawOf t m).length := rfl

theorem mkShortCit_raw (t : List Char) (m : RMatch) : (mkShortCit t m).raw = rawOf t m := rfl

/-- Two citations occupy disjoint half-open index intervals. -/
def citDisjoint (a b : Citation) : Prop :=
  a.endIndex ≤ b.startIndex ∨ b.endIndex ≤ a.startIndex

theorem citDisjoint_symm : Symmetric citDisjoint := fun _ _ h => h.symm

/-! ## Properties of the two extraction passes -/

theorem fullPassAux_mem (t : List Char) :
    ∀ (ms : List RMatch) (seen : List String) (c : Citation),
      c ∈ (fullPassAux t ms seen).1 → ∃ m ∈ ms, c = mkFullCit t m := by
  intro ms
  induction ms with
  | nil => intro seen c h; simp [fullPassAux] at h
  | cons m ms ih =>
    intro seen c h
    rw [fullPassAux] at h
    split at h
    · rcases ih _ _ h with ⟨m', hm', hc⟩
      exact ⟨m', List.mem_cons_of_mem _ hm', hc⟩
    · rcases List.mem_cons.mp h with h1 | h1
      · exact ⟨m, List.mem_cons_self _ _, h1⟩
      · rcases ih _ _ h1 with ⟨m', hm', hc⟩
        exact ⟨m', List.mem_cons_of_mem _ hm', hc⟩

theorem fullPassAux_disjoint (t : List Char) :
    ∀ (ms : List RMatch) (seen : List String),
      ms.Pairwise (fun a b => a.start + a.len ≤ b.start) →
      ((fullPassAux t ms seen).1).Pairwise citDisjoint := by
  intro ms
  induction ms with
  | nil => intro seen _; simp [fullPassAux]
  | cons m ms ih =>
    intro seen hp
    rcases List.pairwise_cons.mp hp with ⟨hhead, htail⟩
    rw [fullPassAux]
    split
    · exact ih _ htail
    · refine List.Pairwise.cons ?_ (ih _ htail)
      intro c' hc'
      rcases fullPassAux_mem t _ _ _ hc' with ⟨m', hm', hc⟩
      left
      rw [hc, mkFullCit_start, mkFullCit_end]
      have h1 := rawOf_length_le t m
      have h2 := hhead m' hm'
      omega

theorem fullPassAux_key_false (t : List Char) :
    ∀ (ms : List RMatch) (seen : List String) (c : Citation),
      c ∈ (fullPassAux t ms seen).1 →
      seen.contains (normalizeWhitespace c.raw) = false := by
  intro ms
  induction ms with
  | nil => intro seen c h; simp [fullPassAux] at h
  | cons m ms ih =>
    intro seen c h
    rw [fullPassAux] at h
    split at h
    · exact ih _ _ h
    · next hct =>
      rcases List.mem_cons.mp h with h1 | h1
      · rw [h1, mkFullCit_raw]
        exact Bool.not_eq_true _ ▸ hct
      · have h2 := ih _ _ h1
        simp only [List.contains_cons, Bool.or_eq_false_iff] at h2
        exact h2.2

theorem fullPassAux_keyNe (t : List Char) :
    ∀ (ms : List RMatch) (seen : List String),
      ((fullPassAux t ms seen).1).Pairwise
        (fun a b => normalizeWhitespace a.raw ≠ normalizeWhitespace b.raw) := by
  intro ms
  induction ms with
  | nil => intro seen; simp [fullPassAux]
  | cons m ms ih =>
    intro seen
    rw [fullPassAux]
    split
    · exact ih _
    · refine List.Pairwise.cons ?_ (ih _)
      intro c' hc' heq
      have h2 := fullPassAux_key_false t ms _ c' hc'
      simp only [List.contains_cons, Bool.or_eq_false_iff] at h2
      have h3 : (normalizeWhitespace c'.raw ==
          normalizeWhitespace (rawOf t m)) = false := h2.1
      rw [mkFullCit_raw] at heq
      rw [heq] at h3
      simp at h3

theorem fullPassAux_seen_sub (t : List Char) :
    ∀ (ms : List RMatch) (seen : List String) (k : String),
      seen.contains k = true → (fullPassAux t ms seen).2.contains k = true := by
  intro ms
  induction ms with
  | nil => intro seen k h; exact h
  | cons m ms ih =>
    intro seen k h
    rw [fullPassAux]
    split
    · exact ih _ _ h
    · exact ih _ _ (by simp only [List.contains_cons, h, Bool.or_true])

theorem fullPassAux_key_in_final (t : List Char) :
    ∀ (ms : List RMatch) (seen : List String) (c : Citation),
      c ∈ (fullPassAux t ms seen).1 →
      (fullPassAux t ms seen).2.contains (normalizeWhitespace c.raw) = true := by
  intro ms
  induction ms with
  | nil => intro seen c h; simp [fullPassAux] at h
  | cons m ms ih =>
    intro seen c h
    rw [fullPassAux] at h ⊢
    split at h
    · next hct => rw [if_pos hct]; exact ih _ _ h
    · next hct =>
      rw [if_neg hct]
      rcases List.mem_cons.mp h with h1 | h1
      · refine fullPassAux_seen_sub t ms _ _ ?_
        rw [h1, mkFullCit_raw]
        simp [List.contains_cons]
      · exact ih _ _ h1

theorem shortPassAux_mem (t : List Char) :
    ∀ (ms : List RMatch) (seen : List String) (cits : List Citation) (c : Citation),
      c ∈ shortPassAux t ms seen cits → ∃ m ∈ ms, c = mkShortCit t m := by
  intro ms
  induction ms with
  | nil => intro seen cits c h; simp [shortPassAux] at h
  | cons m ms ih =>
    intro seen cits c h
    rw [shortPassAux] at h
    split at h
    · rcases ih _ _ _ h with ⟨m', hm', hc⟩
      exact ⟨m', List.mem_cons_of_mem _ hm', hc⟩
    · split at h
      · rcases ih _ _ _ h with ⟨m', hm', hc⟩
        exact ⟨m', List.mem_cons_of_mem _ hm', hc⟩
      · rcases List.mem_cons.mp h with h1 | h1
        · exact ⟨m, List.mem_cons_self _ _, h1⟩
        · rcases ih _ _ _ h1 with ⟨m', hm', hc⟩
          exact ⟨m', List.mem_cons_of_mem _ hm', hc⟩

theorem shortPassAux_disjoint (t : List Char) :
    ∀ (ms : List RMatch) (seen : List String) (cits : List Citation),
      ms.Pairwise (fun a b => a.start + a.len ≤ b.start) →
      (shortPassAux t ms seen cits).Pairwise citDisjoint := by
  intro ms
  induction ms with
  | nil => intro seen cits _; simp [shortPassAux]
  | cons m ms ih =>
    intro seen cits hp
    rcases List.pairwise_cons.mp hp with ⟨hhead, htail⟩
    rw [shortPassAux]
    split
    · exact ih _ _ htail
    · split
      · exact ih _ _ htail
      · refine List.Pairwise.cons ?_ (ih _ _ htail)
        intro c' hc'
        rcases shortPassAux_mem t _ _ _ _ hc' with ⟨m', hm', hc⟩
        left
        rw [hc, mkShortCit_start, mkShortCit_end]
        have h1 := rawOf_length_le t m
        have h2 := hhead m' hm'
        omega

/-- A short citation is retained only if its start offset lies outside every
interval already claimed when it was examined; in particular outside every
citation in the initial array. -/
theorem shortPassAux_start_outside (t : List Char) :
    ∀ (ms : List RMatch) (seen : List String) (cits : List Citation) (c : Citation),
      c ∈ shortPassAux t ms seen cits →
      ∀ f ∈ cits, ¬(f.startIndex ≤ c.startIndex ∧ c.startIndex < f.endIndex) := by
  intro ms
  induction ms with
  | nil => intro seen cits c h; simp [shortPassAux] at h
  | cons m ms ih =>
    intro seen cits c h
    rw [shortPassAux] at h
    split at h
    · exact ih _ _ _ h
    · split at h
      · exact ih _ _ _ h
      · next hov =>
        rcases List.mem_cons.mp h with h1 | h1
        · intro f hf hcontra
          have h2 : overlapsAny m.start cits = true := by
            unfold overlapsAny
            refine List.any_eq_true.mpr ⟨f, hf, ?_⟩
            rw [h1, mkShortCit_start] at hcontra
            simp [hcontra.1, hcontra.2]
          exact hov h2
        · intro f hf
          exact ih _ _ _ h1 f (List.mem_append_left _ hf)

theorem shortPassAux_key_false (t : List Char) :
    ∀ (ms : List RMatch) (seen : List String) (cits : List Citation) (c : Citation),
      c ∈ shortPassAux t ms seen cits →
      seen.contains (normalizeWhitespace c.raw) = false := by
  intro ms
  induction ms with
  | nil => intro seen cits c h; simp [shortPassAux] at h
  | cons m ms ih =>
    intro seen cits c h
    rw [shortPassAux] at h
    split at h
    · exact ih _ _ _ h
    · split at h
      · exact ih _ _ _ h
      · next hct _ =>
        rcases List.mem_cons.mp h with h1 | h1
        · rw [h1, mkShortCit_raw]
          exact Bool.not_eq_true _ ▸ hct
        · have h2 := ih _ _ _ h1
          simp only [List.contains_cons, Bool.or_eq_false_iff] at h2
          exact h2.2

theorem shortPassAux_keyNe (t : List Char) :
    ∀ (ms : List RMatch) (seen : List String) (cits : List Citation),
      (shortPassAux t ms seen cits).Pairwise
        (fun a b => normalizeWhitespace a.raw ≠ normalizeWhitespace b.raw) := by
  intro ms
  induction ms with
  | nil => intro seen cits; simp [shortPassAux]
  | cons m ms ih =>
    intro seen cits
    rw [shortPassAux]
    split
    · exact ih _ _
    · split
      · exact ih _ _
      · refine List.Pairwise.cons ?_ (ih _ _)
        intro c' hc' heq
        have h2 := shortPassAux_key_false t ms _ _ c' hc'
        simp only [List.contains_cons, Bool.or_eq_false_iff] at h2
        have h3 : (normalizeWhitespace c'.raw ==
            normalizeWhitespace (rawOf t m)) = false := h2.1
        rw [mkShortCit_raw] at heq
        rw [heq] at h3
        simp at h3

/-- C1 (amended).  The overlap policy `extractCitations` actually enforces:
it returns the stable sort by start offset of the two passes' citations;
the full-pass citations are pairwise disjoint; the short-pass citations are
pairwise disjoint; and a retained short citation never *starts* inside a
full citation's interval.  (A short citation may still *extend over* a
full citation that starts later, so the output is not pairwise disjoint in
general; see the counterexample.) -/
theorem extractCitations_overlap_policy (text : String) :
    extractCitations text =
      List.insertionSort citLE (fullCits text.data ++ shortCits text.data)
    ∧ (fullCits text.data).Pairwise citDisjoint
    ∧ (shortCits text.data).Pairwise citDisjoint
    ∧ ∀ s ∈ shortCits text.data, ∀ f ∈ fullCits text.data,
        ¬(f.startIndex ≤ s.startIndex ∧ s.startIndex < f.endIndex) := by
  refine ⟨rfl, ?_, ?_, ?_⟩
  · exact fullPassAux_disjoint text.data _ _ (execAll_chain _ _ _)
  · exact shortPassAux_disjoint text.data _ _ _ (execAll_chain _ _ _)
  · intro s hs f hf
    exact shortPassAux_start_outside text.data _ _ _ s hs f hf

/-- C1 (counterexample).  On this text the short-citation pass retains a
match that starts before the full citation and swallows it through the
`([^)]+?)\s*(\d{4})\)` parenthetical group: the two returned citations
have overlapping intervals, because the overlap filter only tests whether
the short match's start offset lies inside an earlier citation. -/
theorem extractCitations_overlap_cex :
    extractCitations "1 A. 2 (Smith v. Jones, 3 A. 4 (1990)" =
      [{ raw := "1 A. 2 (Smith v. Jones, 3 A. 4 (1990)", volume := some "1",
         reporter := "A.", page := some "2", year := some "1990",
         court := some "Smith v. Jones, 3 A. 4 (", startIndex := 0, endIndex := 37 },
       { raw := "Smith v. Jones, 3 A. 4", caseName := some "Smith v. Jones",
         volume := some "3", reporter := "A.", page := some "4",
         startIndex := 8, endIndex := 30 }]
    ∧ ¬ citDisjoint
        { raw := "1 A. 2 (Smith v. Jones, 3 A. 4 (1990)", volume := some "1",
          reporter := "A.", page := some "2", year := some "1990",
          court := some "Smith v. Jones, 3 A. 4 (", startIndex := 0, endIndex := 37 }
        { raw := "Smith v. Jones, 3 A. 4", caseName := some "Smith v. Jones",
          volume := some "3", reporter := "A.", page := some "4",
          startIndex := 8, endIndex := 30 } := by
  constructor
  · decide
  · intro h
    rcases h with h | h <;> simp at h

/-- C10 (amended).  The whitespace-normalized, lowercased raw strings of the
returned citations are pairwise distinct: every retained citation's key is
checked against and then added to the shared `seen` set, across both
passes.  (Which occurrence of a duplicated short-form string is retained is
not always the textually first one; see the counterexample.) -/
theorem extractCitations_dedup_keys (text : String) :
    (extractCitations text).Pairwise
      (fun a b => normalizeWhitespace a.raw ≠ normalizeWhitespace b.raw) := by
  have hperm : List.Perm (extractCitations text)
      (fullCits text.data ++ shortCits text.data) :=
    List.perm_insertionSort citLE _
  refine (hperm.pairwise_iff fun h => Ne.symm h).mpr ?_
  refine List.pairwise_append.mpr ⟨fullPassAux_keyNe text.data _ _,
    shortPassAux_keyNe text.data _ _ _, ?_⟩
  intro a ha b hb heq
  have h1 : (seenAfterFull text.data).contains (normalizeWhitespace a.raw) = true :=
    fullPassAux_key_in_final text.data _ _ a ha
  have h2 : (seenAfterFull text.data).contains (normalizeWhitespace b.raw) = false :=
    shortPassAux_key_false text.data _ _ _ b hb
  rw [heq] at h1
  rw [h1] at h2
  cases h2

/-- C10 (counterexample).  In this text the short-form string `4 A. 5`
occurs at offsets 13 and 25.  The occurrence at 13 lies inside the full
citation and is discarded by the overlap check *before* its key is added to
the `seen` set, so the *later* occurrence at 25 is retained — refuting the
claim that only the first occurrence of a duplicated short-form string is
retained and the later one dropped. -/
theorem extractCitations_dedup_cex :
    extractCitations "Roe v. Wade, 4 A. 5. See 4 A. 5." =
      [{ raw := "Roe v. Wade, 4 A. 5", caseName := some "Roe v. Wade",
         volume := some "4", reporter := "A.", page := some "5",
         startIndex := 0, endIndex := 19 },
       { raw := "4 A. 5", volume := some "4", reporter := "A.", page := some "5",
         startIndex := 25, endIndex := 31 }]
    ∧ normalizeWhitespace
        (String.mk (sliceStr "Roe v. Wade, 4 A. 5. See 4 A. 5.".data 13 6)) = "4 a. 5"
    ∧ normalizeWhitespace "4 A. 5" = "4 a. 5" := by
  refine ⟨by decide, by decide, by decide⟩

/-! ## Verifier theorems -/

/-- C3.  A citation the validator rejects terminates immediately with
`format_error`, confidence 0 and the validator's issue list as warnings;
the result does not depend on the lookup oracles, so no network request is
made for it. -/
theorem verifyCitation_formatGate (cy : Int) (c : Citation)
    (hval : (validateCitationFormat cy c).1 = false) :
    ∀ q1 q2 : Option SearchResponse,
      (verifyCitation cy q1 q2 c).status = VStatus.formatError
      ∧ (verifyCitation cy q1 q2 c).confidence = 0
      ∧ (verifyCitation cy q1 q2 c).warnings = (validateCitationFormat cy c).2
      ∧ verifyCitation cy q1 q2 c = verifyCitation cy none none c := by
  intro q1 q2
  simp [verifyCitation, hval]

def c3cit : Citation :=
  { raw := "0 U.S. 5", volume := some "0", reporter := "U.S.", page := some "5",
    startIndex := 0, endIndex := 8 }

theorem verifyCitation_formatGate_w :
    (verifyCitation 2026 none none c3cit).status = VStatus.formatError
    ∧ (verifyCitation 2026 none none c3cit).warnings =
        (validateCitationFormat 2026 c3cit).2 := by
  have h := verifyCitation_formatGate 2026 c3cit (by decide) none none
  exact ⟨h.1, h.2.2.1⟩

theorem pickBest_aux (c : Citation) :
    ∀ (l : List CLCase) (acc : Option CLCase × Nat),
      (acc.1 = none → acc.2 = 0) →
      ((l.foldl (pickStep c) acc).1 = none → (l.foldl (pickStep c) acc).2 = 0) := by
  intro l
  induction l with
  | nil => intro acc h; exact h
  | cons r l ih =>
    intro acc h
    rw [List.foldl_cons]
    refine ih _ ?_
    by_cases hlt : acc.2 < calculateConfidence c r
    · intro hx
      simp only [pickStep, if_pos hlt] at hx
      cases hx
    · simp only [pickStep, if_neg hlt]
      exact h

theorem pickBest_none {c : Citation} {l : List CLCase}
    (h : (pickBest c l).1 = none) : (pickBest c l).2 = 0 :=
  pickBest_aux c l (none, 0) (fun _ => rfl) h

/-- C2.  After a successful validation and a successful lookup with at
least one record, the outcome is classified by the best candidate's
confidence with exact boundaries 70 and 40; `partial_match` appends the
manual-verification warning, and a best confidence below 40 yields
`not_found` with `matchedCase` and `courtListenerUrl` absent.  The result's
confidence always equals the best candidate's. -/
theorem verifyCitation_classification (cy : Int) (q1 q2 : Option SearchResponse)
    (c : Citation) (resp : SearchResponse)
    (hval : (validateCitationFormat cy c).1 = true)
    (hfin : finalLookup q1 q2 = some resp)
    (hcnt : resp.count ≠ 0) :
    (verifyCitation cy q1 q2 c).confidence = (pickBest c resp.results).2
    ∧ (70 ≤ (pickBest c resp.results).2 →
        (verifyCitation cy q1 q2 c).status = VStatus.verified)
    ∧ (40 ≤ (pickBest c resp.results).2 → (pickBest c resp.results).2 < 70 →
        (verifyCitation cy q1 q2 c).status = VStatus.partMatch
        ∧ (verifyCitation cy q1 q2 c).warnings.getLast? =
            some "Low confidence match - verify manually")
    ∧ ((pickBest c resp.results).2 < 40 →
        (verifyCitation cy q1 q2 c).status = VStatus.notFound
        ∧ (verifyCitation cy q1 q2 c).matchedCase = none
        ∧ (verifyCitation cy q1 q2 c).courtListenerUrl = none) := by
  rcases hpb : pickBest c resp.results with ⟨ob, b⟩
  cases ob with
  | none =>
    have hb0 : b = 0 := by
      have h1 : (pickBest c resp.results).1 = none := by rw [hpb]
      have h2 := pickBest_none h1
      rw [hpb] at h2
      exact h2
    subst hb0
    have hv : verifyCitation cy q1 q2 c =
        { citation := c, status := .notFound, confidence := 0,
          details := "Search returned results but none matched the citation.",
          warnings := ["No confident match found"] } := by
      simp only [verifyCitation, hval, Bool.not_true, Bool.false_eq_true, if_false, hfin,
        if_neg hcnt, hpb]
    simp only [hpb]
    refine ⟨by rw [hv], ?_, ?_, ?_⟩
    · intro h70; omega
    · intro h40 _; omega
    · intro _; rw [hv]; exact ⟨rfl, rfl, rfl⟩
  | some best =>
    simp only [hpb]
    by_cases h70 : 70 ≤ b
    · have hv : verifyCitation cy q1 q2 c =
          { citation := c, status := .verified, confidence := b,
            details := "Citation verified. Found matching case in CourtListener database.",
            courtListenerUrl := some ("https://www.courtlistener.com" ++ best.absolute_url),
            matchedCase := some (mkMatched best),
            warnings := mismatchWarnings c best } := by
        simp only [verifyCitation, hval, Bool.not_true, Bool.false_eq_true, if_false, hfin,
          if_neg hcnt, hpb, if_pos h70]
      refine ⟨by rw [hv], fun _ => by rw [hv], ?_, ?_⟩
      · intro _ hlt; omega
      · intro hlt; omega
    · by_cases h40 : 40 ≤ b
      · have hv : verifyCitation cy q1 q2 c =
            { citation := c, status := .partMatch, confidence := b,
              details := "Possible match found, but confidence is low. Manual verification recommended.",
              courtListenerUrl := some ("https://www.courtlistener.com" ++ best.absolute_url),
              matchedCase := some (mkMatched best),
              warnings := mismatchWarnings c best ++
                ["Low confidence match - verify manually"] } := by
          simp only [verifyCitation, hval, Bool.not_true, Bool.false_eq_true, if_false, hfin,
            if_neg hcnt, hpb, if_neg h70, if_pos h40]
        refine ⟨by rw [hv], fun h => absurd h h70, ?_, ?_⟩
        · intro _ _
          rw [hv]
          exact ⟨rfl, List.getLast?_concat _⟩
        · intro hlt; omega
      · have hv : verifyCitation cy q1 q2 c =
            { citation := c, status := .notFound, confidence := b,
              details := "Found potential result \"" ++ best.case_name ++
                "\" but match confidence is too low.",
              warnings := mismatchWarnings c best ++
                ["Very low confidence - likely not a match"] } := by
          simp only [verifyCitation, hval, Bool.not_true, Bool.false_eq_true, if_false, hfin,
            if_neg hcnt, hpb, if_neg h70, if_neg h40]
        refine ⟨by rw [hv], fun h => absurd h h70, fun h _ => absurd h h40, ?_⟩
        intro _
        rw [hv]
        exact ⟨rfl, rfl, rfl⟩

def c2cit : Citation :=
  { raw := "410 U.S. 113", volume := some "410", reporter := "U.S.",
    page := some "113", startIndex := 0, endIndex := 12 }

def c2resp : SearchResponse :=
  { count := 1, results := [{ citation := some ["410 U.S. 113"] }] }

theorem verifyCitation_classification_w :
    (verifyCitation 2026 (some c2resp) none c2cit).status = VStatus.partMatch
    ∧ (verifyCitation 2026 (some c2resp) none c2cit).warnings.getLast? =
        some "Low confidence match - verify manually" :=
  (verifyCitation_classification 2026 (some c2resp) none c2cit c2resp
    (by decide) (by decide) (by decide)).2.2.1 (by decide) (by decide)

/-- C4 (amended).  For a citation that passes validation, the verifier
terminates with `api_error` exactly when the response it ends up acting on
is a transport failure: the first query failed *or returned zero records*,
and the fallback query failed.  An `api_error` outcome always carries
confidence 0.  Whenever the final consulted response succeeds with zero
records the result is `not_found` with confidence 0. -/
theorem verifyCitation_apiError_iff (cy : Int) (q1 q2 : Option SearchResponse)
    (c : Citation) (hval : (validateCitationFormat cy c).1 = true) :
    ((verifyCitation cy q1 q2 c).status = VStatus.apiError ↔
      ((q1 = none ∨ ∃ r, q1 = some r ∧ r.count = 0) ∧ q2 = none))
    ∧ ((verifyCitation cy q1 q2 c).status = VStatus.apiError →
        (verifyCitation cy q1 q2 c).confidence = 0)
    ∧ (∀ resp, finalLookup q1 q2 = some resp → resp.count = 0 →
        (verifyCitation cy q1 q2 c).status = VStatus.notFound
        ∧ (verifyCitation cy q1 q2 c).confidence = 0) := by
  have hnotApi : ∀ resp, finalLookup q1 q2 = some resp →
      ¬ (verifyCitation cy q1 q2 c).status = VStatus.apiError := by
    intro resp hfin
    simp only [verifyCitation, hval, Bool.not_true, Bool.false_eq_true, if_false, hfin]
    split
    · intro h; cases h
    · split
      · intro h; cases h
      · split <;> (intro h; first | cases h | (revert h; split <;> intro h <;> cases h))
  have hcount0 : ∀ resp, finalLookup q1 q2 = some resp → resp.count = 0 →
      (verifyCitation cy q1 q2 c).status = VStatus.notFound
      ∧ (verifyCitation cy q1 q2 c).confidence = 0 := by
    intro resp hfin hc
    simp only [verifyCitation, hval, Bool.not_true, Bool.false_eq_true, if_false, hfin,
      if_pos hc]
    exact ⟨trivial, trivial⟩
  have hfail : (q1 = none ∨ ∃ r, q1 = some r ∧ r.count = 0) → q2 = none →
      verifyCitation cy q1 q2 c =
        { citation := c, status := .apiError, confidence := 0,
          details := "Failed to query CourtListener API. Check your connection or try again later.",
          warnings := ["API request failed"] } := by
    intro h1 h2
    have hfin : finalLookup q1 q2 = none := by
      rcases h1 with h1 | ⟨r, hr, hc⟩
      · rw [h1, h2]; rfl
      · rw [hr, h2]; simp [finalLookup, hc]
    simp only [verifyCitation, hval, Bool.not_true, Bool.false_eq_true, if_false, hfin]
  have hiff : (verifyCitation cy q1 q2 c).status = VStatus.apiError ↔
      ((q1 = none ∨ ∃ r, q1 = some r ∧ r.count = 0) ∧ q2 = none) := by
    constructor
    · intro hapi
      rcases hq1 : q1 with _ | r1
      · rcases hq2 : q2 with _ | r2
        · exact ⟨Or.inl rfl, rfl⟩
        · exfalso
          refine hnotApi r2 ?_ hapi
          rw [hq1, hq2]; rfl
      · by_cases hc1 : r1.count = 0
        · rcases hq2 : q2 with _ | r2
          · exact ⟨Or.inr ⟨r1, rfl, hc1⟩, rfl⟩
          · exfalso
            refine hnotApi r2 ?_ hapi
            rw [hq1, hq2]
            simp [finalLookup, hc1]
        · exfalso
          refine hnotApi r1 ?_ hapi
          rw [hq1]
          simp [finalLookup, hc1]
    · rintro ⟨h1, h2⟩
      rw [hfail h1 h2]
  refine ⟨hiff, ?_, hcount0⟩
  intro hapi
  rcases hiff.mp hapi with ⟨h1, h2⟩
  rw [hfail h1 h2]

def c4cit : Citation :=
  { raw := "347 U.S. 483", volume := some "347", reporter := "U.S.",
    page := some "483", startIndex := 0, endIndex := 12 }

/-- C4 (counterexample).  The first query succeeds (with zero records) and
only the fallback query fails at the transport level, yet the verifier
still reports `api_error` — refuting "api_error iff *both* attempts fail
at the transport/HTTP level". -/
theorem verifyCitation_apiError_cex :
    (verifyCitation 2026 (some { count := 0, results := [] }) none c4cit).status =
      VStatus.apiError
    ∧ (some { count := 0, results := [] } : Option SearchResponse) ≠ none := by
  refine ⟨by decide, by simp⟩

theorem verifyCitation_apiError_iff_w :
    (verifyCitation 2026 none none c4cit).status = VStatus.apiError
    ∧ (verifyCitation 2026 none none c4cit).confidence = 0 := by
  have h := verifyCitation_apiError_iff 2026 none none c4cit (by decide)
  have hs := h.1.mpr ⟨Or.inl rfl, rfl⟩
  exact ⟨hs, h.2.1 hs⟩

/-- C6 (amended).  The citation-string category of the confidence score is
decided by the *first* candidate citation string that qualifies at all: it
contributes 50 if that string contains the exact `"volume reporter page"`
token case-insensitively, and otherwise 30 (it then contains the volume and
page tokens); the category contributes at most once (never more than 50),
and `calculateConfidence` adds it to the other two categories, capped at
100. -/
theorem calculateConfidence_citeCategory (c : Citation) (r : CLCase)
    (cs vol pg : String) (l : List String) :
    (citeContribution cs vol pg l =
      match l.find? (fun s => includesS (lowerS s) (lowerS cs) ||
          (includesS s vol && includesS s pg)) with
      | some s => if includesS (lowerS s) (lowerS cs) then 50 else 30
      | none => 0)
    ∧ citeContribution cs vol pg l ≤ 50
    ∧ calculateConfidence c r =
        min 100 (citeContribution (jsTpl c.volume ++ " " ++ c.reporter ++ " " ++ jsTpl c.page)
          (c.volume.getD "") (c.page.getD "") (r.citation.getD [])
          + caseNameScore c r + yearScore c r) := by
  refine ⟨?_, ?_, rfl⟩
  · induction l with
    | nil => rfl
    | cons s rest ih =>
      by_cases hfull : includesS (lowerS s) (lowerS cs) = true
      · rw [citeContribution, if_pos hfull, List.find?_cons_of_pos _ (by simp [hfull])]
        simp [hfull]
      · by_cases hpart : (includesS s vol && includesS s pg) = true
        · rw [citeContribution, if_neg hfull, if_pos hpart,
            List.find?_cons_of_pos _ (by simp [hpart])]
          simp [hfull]
        · rw [citeContribution, if_neg hfull, if_neg hpart,
            List.find?_cons_of_neg _ (by simp [hfull, hpart]), ih]
  · induction l with
    | nil => exact Nat.zero_le _
    | cons s rest ih =>
      rw [citeContribution]
      split
      · exact Nat.le_refl _
      · split
        · omega
        · exact ih

def c6cit : Citation :=
  { raw := "410 U.S. 113", volume := some "410", reporter := "U.S.",
    page := some "113", startIndex := 0, endIndex := 12 }

def c6cand : CLCase := { citation := some ["410 X 113", "410 U.S. 113"] }

/-- C6 (counterexample).  The candidate's second citation string contains
the exact `"410 U.S. 113"` token, so the claim's "any string" reading
demands a +50 contribution, but the loop breaks at the *first* string,
which only matches partially: the computed confidence is 30. -/
theorem calculateConfidence_firstWins_cex :
    calculateConfidence c6cit c6cand = 30
    ∧ (c6cand.citation.getD []).any
        (fun s => includesS (lowerS s) (lowerS "410 U.S. 113")) = true
    ∧ caseNameScore c6cit c6cand = 0 ∧ yearScore c6cit c6cand = 0 := by
  refine ⟨by decide, by decide, rfl, rfl⟩

/-! ## Validator theorems -/

/-- A nonempty string of decimal digits (the form of the `volume`, `page`
and `year` fields of the spec's data model). -/
def isDigitStr (s : String) : Prop := s.data ≠ [] ∧ ∀ c ∈ s.data, isDigitCh c = true

instance : DecidablePred isDigitStr := fun s => by unfold isDigitStr; infer_instance

/-- The numeric value of a digit string. -/
def digitsNat (s : String) : Nat := digitsVal s.data

theorem digit_facts {c : Char} (h : isDigitCh c = true) :
    jsWS c = false ∧ ¬c = '-' ∧ ¬c = '+' ∧ ¬c = 'x' ∧ ¬c = 'X' := by
  simp only [isDigitCh, Bool.and_eq_true, decide_eq_true_eq] at h
  refine ⟨?_, ?_, ?_, ?_, ?_⟩
  · simp only [jsWS, Bool.or_eq_false_iff, decide_eq_false_iff_not]
    omega
  all_goals (intro he; subst he; revert h; decide)

theorem takeWhile_of_all (p : Char → Bool) :
    ∀ l : List Char, (∀ c ∈ l, p c = true) → l.takeWhile p = l := by
  intro l
  induction l with
  | nil => intro _; rfl
  | cons c cs ih =>
    intro h
    rw [List.takeWhile_cons_of_pos (h c (List.mem_cons_self _ _)),
      ih fun x hx => h x (List.mem_cons_of_mem _ hx)]

/-- On a nonempty all-digits string, `parseInt` returns its decimal value. -/
theorem parseIntJS_digitStr {s : String} (h : isDigitStr s) :
    parseIntJS s = some (digitsNat s : Int) := by
  rcases h with ⟨hne, hall⟩
  rcases hd : s.data with _ | ⟨c, cs⟩
  · exact absurd hd hne
  have hc : isDigitCh c = true := hall c (hd ▸ List.mem_cons_self _ _)
  obtain ⟨hws, hminus, hplus, _, _⟩ := digit_facts hc
  have h0 : s.data.dropWhile jsWS = c :: cs := by
    rw [hd, List.dropWhile_cons, if_neg (by simp [hws])]
  have htk : (c :: cs).takeWhile isDigitCh = c :: cs :=
    takeWhile_of_all _ _ fun x hx => hall x (hd ▸ hx)
  simp only [parseIntJS, h0]
  rw [if_neg (by simp [hminus, hplus])]
  rcases cs with _ | ⟨c1, rest⟩
  · rw [digitsNat, hd]
    simp [htk, hminus]
  · have hc1 : isDigitCh c1 = true := hall c1 (hd ▸ List.mem_cons_of_mem _ (List.mem_cons_self _ _))
    obtain ⟨_, _, _, hx1, hX1⟩ := digit_facts hc1
    rw [digitsNat, hd]
    simp only [htk]
    simp [hminus]
    intro _ hcc
    rcases hcc with h | h
    · exact absurd h hx1
    · exact absurd h hX1

theorem ite_singleton_eq_nil {p : Prop} [Decidable p] (x : String) :
    ((if p then [x] else []) = []) ↔ ¬p := by
  split <;> simp [*]

theorem digitStr_ne_empty {s : String} (h : isDigitStr s) : ¬s = "" := fun he =>
  h.1 (by subst he; rfl)

/-- C5.  For a citation whose numeric-string fields have the form the data
model prescribes (nonempty digit strings; year optional), the validator's
issue list is empty exactly when the volume lies in `[1, 2000]`, the page
in `[1, 10000]`, the year — when present — in `[1789, currentYear]`, and
the whitespace-normalized reporter is a key of the reporter table; and
`valid` is true exactly when the issue list is empty. -/
theorem validateCitationFormat_iff (cy : Int) (c : Citation) (vs ps : String)
    (hvol : c.volume = some vs) (hvd : isDigitStr vs)
    (hpg : c.page = some ps) (hpd : isDigitStr ps)
    (hyr : c.year = none ∨ ∃ ys, c.year = some ys ∧ isDigitStr ys) :
    ((validateCitationFormat cy c).2 = [] ↔
      (1 ≤ digitsNat vs ∧ digitsNat vs ≤ 2000
       ∧ 1 ≤ digitsNat ps ∧ digitsNat ps ≤ 10000
       ∧ (∀ ys, c.year = some ys → 1789 ≤ (digitsNat ys : Int) ∧ (digitsNat ys : Int) ≤ cy)
       ∧ (reporterLookup (String.mk (collapseWS c.reporter.data))).isSome = true))
    ∧ ((validateCitationFormat cy c).1 = true ↔ (validateCitationFormat cy c).2 = []) := by
  have hvsne : ¬vs = "" := digitStr_ne_empty hvd
  have hpsne : ¬ps = "" := digitStr_ne_empty hpd
  have hv1 : parseIntJS (jsOrZero c.volume) = some (digitsNat vs : Int) := by
    rw [hvol]
    show parseIntJS (if vs = "" then "0" else vs) = _
    rw [if_neg hvsne, parseIntJS_digitStr hvd]
  have hp1 : parseIntJS (jsOrZero c.page) = some (digitsNat ps : Int) := by
    rw [hpg]
    show parseIntJS (if ps = "" then "0" else ps) = _
    rw [if_neg hpsne, parseIntJS_digitStr hpd]
  have hsplit : (validateCitationFormat cy c).2 =
      (if intOutside (some (digitsNat vs : Int)) 1 2000 then
        ["Unusual volume number: " ++ jsTpl c.volume] else [])
      ++ (if intOutside (some (digitsNat ps : Int)) 1 10000 then
        ["Unusual page number: " ++ jsTpl c.page] else [])
      ++ (match c.year with
          | some y =>
            if y = "" then []
            else if intOutside (parseIntJS y) 1789 cy then ["Year out of range: " ++ y] else []
          | none => [])
      ++ (if (reporterLookup (String.mk (collapseWS c.reporter.data))).isSome then []
          else ["Unknown reporter: " ++ c.reporter]) := by
    simp only [validateCitationFormat, hv1, hp1]
  have hvalid : (validateCitationFormat cy c).1 = true ↔ (validateCitationFormat cy c).2 = [] := by
    show ((validateCitationFormat cy c).2.isEmpty = true) ↔ _
    exact List.isEmpty_iff
  refine ⟨?_, hvalid⟩
  rw [hsplit]
  simp only [List.append_eq_nil]
  have hout : ∀ (v lo hi : Int), (intOutside (some v) lo hi = true) ↔ (v < lo ∨ hi < v) := by
    intro v lo hi
    simp [intOutside]
  constructor
  · rintro ⟨⟨⟨ha, hb⟩, hc⟩, hd⟩
    rw [ite_singleton_eq_nil] at ha hb
    rw [hout] at ha hb
    refine ⟨by omega, by omega, by omega, by omega, ?_, ?_⟩
    · intro ys hys
      rcases hyr with hn | ⟨ys', hys', hysd⟩
      · rw [hn] at hys; cases hys
      · rw [hys'] at hys
        injection hys with hy
        subst hy
        simp only [hys'] at hc
        rw [if_neg (digitStr_ne_empty hysd), parseIntJS_digitStr hysd,
          ite_singleton_eq_nil, hout] at hc
        omega
    · by_cases hrep : (reporterLookup (String.mk (collapseWS c.reporter.data))).isSome = true
      · exact hrep
      · rw [if_neg hrep] at hd
        simp at hd
  · rintro ⟨h1, h2, h3, h4, h5, h6⟩
    refine ⟨⟨⟨?_, ?_⟩, ?_⟩, ?_⟩
    · rw [ite_singleton_eq_nil, hout]; omega
    · rw [ite_singleton_eq_nil, hout]; omega
    · rcases hyr with hn | ⟨ys', hys', hysd⟩
      · simp only [hn]
      · simp only [hys']
        rw [if_neg (digitStr_ne_empty hysd), parseIntJS_digitStr hysd,
          ite_singleton_eq_nil, hout]
        have := h5 ys' hys'
        omega
    · rw [if_pos h6]

def c5cit : Citation :=
  { raw := "410 U.S. 113 (1973)", volume := some "410", reporter := "U.S.",
    page := some "113", year := some "1973", startIndex := 0, endIndex := 19 }

theorem validateCitationFormat_iff_w :
    (validateCitationFormat 2026 c5cit).2 = [] ∧ (validateCitationFormat 2026 c5cit).1 = true := by
  have h := validateCitationFormat_iff 2026 c5cit "410" "113" rfl (by decide) rfl (by decide)
    (Or.inr ⟨"1973", rfl, by decide⟩)
  have h2 : (validateCitationFormat 2026 c5cit).2 = [] := by
    refine h.1.mpr ⟨by decide, by decide, by decide, by decide, ?_, by decide⟩
    intro ys hys
    injection hys with hy
    subst hy
    constructor <;> decide
  exact ⟨h2, h.2.mpr h2⟩

/-- C9.  The per-status counts of a generated report always sum to
`totalCitations`, which is the number of input results. -/
theorem generateReport_counts (dn ts : String) (rs : List VerificationResult) :
    (generateReport dn ts rs).verified + (generateReport dn ts rs).notFound +
      (generateReport dn ts rs).partMatches + (generateReport dn ts rs).formatErrors +
      (generateReport dn ts rs).apiErrors = (generateReport dn ts rs).totalCitations
    ∧ (generateReport dn ts rs).totalCitations = rs.length := by
  refine ⟨?_, rfl⟩
  simp only [generateReport]
  induction rs with
  | nil => rfl
  | cons r rs ih =>
    cases hs : r.status <;>
      simp [List.filter_cons, hs, beq_iff_eq] <;> omega

/-! ## Concrete extraction scenarios -/

/-- C7.  On the scenario text the extractor returns exactly one citation
with the claimed case name, volume, reporter and page — but `year` is
absent: the `(?:\\s*\\(([^)]+?)\\s*(\\d{4})\\))?` group demands at least one
court character before the year, so a bare `(1973)` parenthetical never
yields a captured year and the match stops after the page. -/
theorem extractCitations_roe :
    extractCitations "Roe v. Wade, 410 U.S. 113 (1973)" =
      [{ raw := "Roe v. Wade, 410 U.S. 113", caseName := some "Roe v. Wade",
         volume := some "410", reporter := "U.S.", page := some "113",
         year := none, court := none, startIndex := 0, endIndex := 25 }] := by
  decide

/-- C8 (counterexample).  The short-citation page group is `\\d{1,5}`, so on
`"see 999 F.3d 999999"` the single extracted citation's page is `"99999"`
(five digits), not the claimed `"999999"`. -/
theorem extractCitations_shortPage_cex :
    (extractCitations "see 999 F.3d 999999").map Citation.page = [some "99999"]
    ∧ ¬(some "99999" = some "999999") := by
  refine ⟨by decide, by decide⟩

def c8cit : Citation :=
  { raw := "999 F.3d 99999", volume := some "999", reporter := "F.3d",
    page := some "99999", startIndex := 4, endIndex := 18 }

/-- C8 (amended).  On `"see 999 F.3d 999999"` the extractor returns exactly
one citation, whose page is `"99999"`; the validator reports the
page-out-of-range issue; and for every current year and every pair of
lookup-oracle outcomes the verifier returns `format_error` with the same
result — the oracles are never consulted, i.e. zero network calls. -/
theorem extractCitations_shortPage_amended :
    extractCitations "see 999 F.3d 999999" = [c8cit]
    ∧ (∀ cy : Int, validateCitationFormat cy c8cit =
        (false, ["Unusual page number: 99999"]))
    ∧ (∀ (cy : Int) (q1 q2 : Option SearchResponse),
        verifyCitation cy q1 q2 c8cit =
          { citation := c8cit, status := VStatus.formatError, confidence := 0,
            details := "Citation format issues: Unusual page number: 99999",
            warnings := ["Unusual page number: 99999"] }) := by
  refine ⟨by decide, fun cy => rfl, fun cy q1 q2 => rfl⟩

end CiteCheck
